import Mathlib

set_option maxHeartbeats 1000000

/-!
Shallow embedding of the condition-canonicalization and icon-resolution
pipeline of `weather_data.py` (class `WeatherConditons.modify_condition`,
class `WeatherIcons.modify_icons`, and `WeatherForecast.full_weather_data`).

Python floats are idealized as rationals; `bytes` values are lists of
naturals; Python dicts (which preserve insertion order and overwrite on
repeated keys) are association lists manipulated by `dinsert`/`dlookup`.
The fuzzy scorer `rapidfuzz.fuzz.ratio` is the normalized InDel similarity
`200 * lcs / (len1 + len2)`, and `rapidfuzz.process.extractOne` (with no
processor, as called in the source) scans the candidate list keeping the
first maximal score.  Network and file-system effects are abstracted:
the icon fetch capability is a parameter `fetch : String → Option (List Nat)`
(`none` models a request failure, which the source turns into `SystemExit`),
and persistence calls are dropped since no claim concerns them.
-/

/-- Taxonomy entry, the `ConditionInfo` dataclass of the source
(`icon_code`, `description`), produced by `WeatherConditons.scrape_data`. -/
structure ConditionInfo where
  icon_code : String
  description : String
deriving DecidableEq, Repr

/-- The `emoji` field of an hourly record: the source stores either a plain
string (initially `''`, then the bare icon code after `modify_condition`) or
the dictionary `{'Description', 'Icon Code', 'Decoded Bytes'}` written by
`modify_icons` (description, icon code, base64-encoded day bytes). -/
inductive EmojiField where
  | text : String → EmojiField
  | payload : String → String → String → EmojiField
deriving DecidableEq, Repr

/-- One hourly record of the forecast document (`hourly_item` built in
`WeatherForecast.data_to_json`): hour label, (Celsius, Fahrenheit) pair,
humidity, condition text, and the emoji field. -/
structure HourlyEntry where
  hour : String
  temperature : ℚ × ℚ
  humidity : ℚ
  conditions : String
  emoji : EmojiField
deriving DecidableEq, Repr

/-- One day item of the forecast document (`item` built in
`WeatherForecast.data_to_json`). -/
structure DayItem where
  location : String
  longitude : ℚ
  latitude : ℚ
  date : String
  min_temp : ℚ × ℚ
  max_temp : ℚ × ℚ
  hourly_data : List HourlyEntry
deriving DecidableEq, Repr

/-- Python dict lookup (`m.get(k)`): first binding of `k`, if any. -/
def dlookup {β : Type} (m : List (String × β)) (k : String) : Option β :=
  (m.find? (fun p => p.1 == k)).map (fun p => p.2)

/-- Python dict update (`m[k] = v`): overwrite the binding in place when the
key is present, otherwise append it (insertion order preserved). -/
def dinsert {β : Type} (k : String) (v : β) (m : List (String × β)) :
    List (String × β) :=
  if m.any (fun p => p.1 == k) then
    m.map (fun p => if p.1 == k then (k, v) else p)
  else m ++ [(k, v)]

/-- Python `m.keys()`. -/
def dkeys {β : Type} (m : List (String × β)) : List String :=
  m.map (fun p => p.1)

/-- Python `m.values()`. -/
def dvalues {β : Type} (m : List (String × β)) : List β :=
  m.map (fun p => p.2)

/-- Length of a longest common subsequence, written with an explicit fuel
argument so that it is structurally recursive (and hence kernel-computable);
every recursive call shrinks the combined length by at least one, so the fuel
`l1.length + l2.length` used in `lcs` below never runs out. -/
def lcsF : Nat → List Char → List Char → Nat
  | 0, _, _ => 0
  | _ + 1, [], _ => 0
  | _ + 1, _ :: _, [] => 0
  | f + 1, a :: as, b :: bs =>
    if a = b then lcsF f as bs + 1
    else max (lcsF f (a :: as) bs) (lcsF f as (b :: bs))

/-- Length of a longest common subsequence, the combinatorial core of the
InDel distance used by `rapidfuzz.fuzz.ratio`. -/
def lcs (l1 l2 : List Char) : Nat := lcsF (l1.length + l2.length) l1 l2

/-- `rapidfuzz.fuzz.ratio`: normalized InDel similarity
`100 * (1 - dist / (len1 + len2)) = 200 * lcs / (len1 + len2)`, with the
convention that two empty strings score 100. -/
def fuzz_ratio (s1 s2 : String) : ℚ :=
  if s1.data.length + s2.data.length = 0 then 100
  else mkRat (200 * (lcs s1.data s2.data : Int)) (s1.data.length + s2.data.length)

/-- `rapidfuzz.process.extractOne(query, choices, scorer=fuzz.ratio)` with the
default `processor=None` and `score_cutoff=None`: `None` on an empty choice
list, otherwise the first candidate attaining the maximal score (a later
candidate replaces the incumbent only on a strictly larger score). -/
def extractOne (query : String) (choices : List String) : Option (String × ℚ) :=
  match choices with
  | [] => none
  | c :: cs =>
    some (cs.foldl
      (fun best c2 => if best.2 < fuzz_ratio query c2 then (c2, fuzz_ratio query c2) else best)
      (c, fuzz_ratio query c))

/-- Python `str.lower()` (ASCII case folding, as in `Char.toLower`), applied
characterwise over the string's character list. -/
def py_lower (s : String) : String := String.mk (s.data.map Char.toLower)

/-- The matcher as invoked at `weather_data.py:434`: the raw phrase is
lowercased, the candidate descriptions are passed through unchanged. -/
def match_condition (raw_phrase : String) (candidates : List String) :
    Option (String × ℚ) :=
  extractOne (py_lower raw_phrase) candidates

/-- The base64 alphabet. -/
def b64_alphabet : List Char :=
  "ABCDEFGHIJKLMNOPQRSTUVWXYZabcdefghijklmnopqrstuvwxyz0123456789+/".data

/-- Character of the base64 alphabet at a sextet value. -/
def b64_char (n : Nat) : Char := b64_alphabet.getD n 'A'

/-- Standard base64 of a byte list, three bytes at a time (`base64.b64encode`),
with `=` padding. -/
def b64encode_chunks : List Nat → List Char
  | [] => []
  | [a] =>
    let n := a % 256 * 65536
    [b64_char (n / 262144 % 64), b64_char (n / 4096 % 64), '=', '=']
  | [a, b] =>
    let n := a % 256 * 65536 + b % 256 * 256
    [b64_char (n / 262144 % 64), b64_char (n / 4096 % 64), b64_char (n / 64 % 64), '=']
  | a :: b :: c :: rest =>
    let n := a % 256 * 65536 + b % 256 * 256 + c % 256
    b64_char (n / 262144 % 64) :: b64_char (n / 4096 % 64) :: b64_char (n / 64 % 64) ::
      b64_char (n % 64) :: b64encode_chunks rest

/-- `b64encode(bytes).decode('utf-8')`. -/
def b64encode (bs : List Nat) : String := String.mk (b64encode_chunks bs)

/-- `unpacked = list(map(lambda i: [i.icon_code, i.description], weather_conditions))`
(`weather_data.py:428`). -/
def unpack_taxonomy (taxonomy : List ConditionInfo) : List (String × String) :=
  taxonomy.map (fun i => (i.icon_code, i.description))

/-- `list(filter(lambda i: i[0] if i[1]==best_match else '', unpacked))[0][0]`
(`weather_data.py:437`): first unpacked pair whose description equals the best
match and whose icon code is truthy (non-empty); `none` models the
`IndexError` raised when the filtered list is empty. -/
def emoji_for (unpacked : List (String × String)) (best_match : String) :
    Option String :=
  ((unpacked.filter (fun i => i.2 == best_match && i.1 != "")).head?).map (fun i => i.1)

/-- Body of the inner loop of `modify_condition` (`weather_data.py:433-438`)
for one hourly record: match the record's condition against the taxonomy
descriptions, overwrite `conditions` with the best match (empty string when
the matcher returns `None`), store the first matching icon code in `emoji`,
and record the pair in the running `emoji_con` dict. -/
def resolve_hour (taxonomy : List ConditionInfo) (ec : List (String × String))
    (h : HourlyEntry) : Except String (HourlyEntry × List (String × String)) :=
  let best_match_ := extractOne (py_lower h.conditions) (taxonomy.map (fun i => i.description))
  let best_match :=
    match best_match_ with
    | some p => p.1
    | none => ""
  match emoji_for (unpack_taxonomy taxonomy) best_match with
  | none => Except.error "IndexError"
  | some code =>
    Except.ok ({ h with conditions := best_match, emoji := EmojiField.text code },
      dinsert best_match code ec)

/-- The inner loop of `modify_condition` over the hourly records of one day,
threading the `emoji_con` dict. -/
def resolve_hours (taxonomy : List ConditionInfo) :
    List (String × String) → List HourlyEntry →
    Except String (List HourlyEntry × List (String × String))
  | ec, [] => Except.ok ([], ec)
  | ec, h :: hs =>
    match resolve_hour taxonomy ec h with
    | Except.error e => Except.error e
    | Except.ok (h2, ec2) =>
      match resolve_hours taxonomy ec2 hs with
      | Except.error e => Except.error e
      | Except.ok (hs2, ec3) => Except.ok (h2 :: hs2, ec3)

/-- The outer loop of `modify_condition` over the day items
(`weather_data.py:430-438`). -/
def resolve_days (taxonomy : List ConditionInfo) :
    List (String × String) → List DayItem →
    Except String (List DayItem × List (String × String))
  | ec, [] => Except.ok ([], ec)
  | ec, d :: ds =>
    match resolve_hours taxonomy ec d.hourly_data with
    | Except.error e => Except.error e
    | Except.ok (hs2, ec2) =>
      match resolve_days taxonomy ec2 ds with
      | Except.error e => Except.error e
      | Except.ok (ds2, ec3) => Except.ok ({ d with hourly_data := hs2 } :: ds2, ec3)

/-- Ordering of index entries by key (canonical description); `sorted` on the
items of a dict whose keys are distinct compares pairs by their keys. -/
def key_le (a b : String × String) : Prop := a.1 ≤ b.1

instance : DecidableRel key_le :=
  fun a b => inferInstanceAs (Decidable (a.1 ≤ b.1))

instance : IsTotal (String × String) key_le := ⟨fun a b => le_total a.1 b.1⟩

instance : IsTrans (String × String) key_le := ⟨fun _ _ _ h1 h2 => le_trans h1 h2⟩

/-- `emoji_con = OrderedDict(sorted(emoji_con.items()))` (`weather_data.py:446`). -/
def sort_index (m : List (String × String)) : List (String × String) :=
  List.insertionSort key_le m

/-- `WeatherConditons.modify_condition` (`weather_data.py:412-448`) up to the
hand-off to `modify_icons`: resolve every hourly record, build `emoji_con`
(the ConditionIndex, returned sorted by description as at line 446) and
`missing_codes` (the MissingIndex, line 439).  An `IndexError` in the record
loop aborts the pass. -/
def modify_condition (taxonomy : List ConditionInfo) (data : List DayItem) :
    Except String (List DayItem × List (String × String) × List (String × String)) :=
  match resolve_days taxonomy [] data with
  | Except.error e => Except.error e
  | Except.ok (data2, emoji_con) =>
    let unpacked := unpack_taxonomy taxonomy
    let missing_codes :=
      (unpacked.filter (fun p => !(dvalues emoji_con).contains p.1)).foldl
        (fun m p => dinsert p.2 p.1 m) []
    Except.ok (data2, sort_index emoji_con, missing_codes)

/-- `code.replace('d', 'n')` (`weather_data.py:488`): every occurrence of the
one-character substring `d` becomes `n`, i.e. a characterwise replacement. -/
def night_code (code : String) : String :=
  String.mk (code.data.map (fun c => if c = 'd' then 'n' else c))

/-- An entry of the `full_modifications` summary document
(`weather_data.py:491-494`): description, icon code, base64 day and night
bytes. -/
structure FullPayload where
  description : String
  icon_code : String
  day_bytes : String
  night_bytes : String
deriving DecidableEq, Repr

/-- Write the emoji dictionary of `weather_data.py:476-478` into a record. -/
def set_emoji (code : String) (png_bytes : List Nat) (h : HourlyEntry) : HourlyEntry :=
  { h with emoji := EmojiField.payload h.conditions code (b64encode png_bytes) }

/-- Guarded record update of the annotation loop (`weather_data.py:475-481`):
the record is rewritten iff `emoji_con.get(conditions['conditions'])` equals
the icon code currently being processed. -/
def annotate_step (emoji_con : List (String × String)) (icon_code : String)
    (png_bytes : List Nat) (h : HourlyEntry) : HourlyEntry :=
  if dlookup emoji_con h.conditions = some icon_code then set_emoji icon_code png_bytes h
  else h

/-- Apply a record transformation to every hourly record of every day. -/
def map_records (f : HourlyEntry → HourlyEntry) (data : List DayItem) : List DayItem :=
  data.map (fun d => { d with hourly_data := d.hourly_data.map f })

/-- First loop of `modify_icons` (`weather_data.py:470-481`): for each
`emoji_con` entry, fetch the day icon for its code (a failed fetch raises
`SystemExit` in `parse_icon_url`, modelled as `Except.error`), then rewrite
every matching record.  The trailing list logs each code passed to the fetch
capability, in order. -/
def annotate_loop (fetch : String → Option (List Nat)) (emoji_con : List (String × String)) :
    List (String × String) → List DayItem → List String →
    Except String (List DayItem × List String)
  | [], data, log => Except.ok (data, log)
  | p :: ps, data, log =>
    match fetch p.2 with
    | none => Except.error ("AssetFetchFailed " ++ p.2)
    | some png_bytes =>
      annotate_loop fetch emoji_con ps (map_records (annotate_step emoji_con p.2 png_bytes) data)
        (log ++ [p.2])

/-- The annotate pass in isolation (first loop of `modify_icons` with the
fetched assets presented as a total icon map `icons : code → bytes`): the
per-entry record rewrites of `weather_data.py:470-481` without the fetch
effect. -/
def annotate (icons : String → List Nat) (emoji_con : List (String × String))
    (data : List DayItem) : List DayItem :=
  emoji_con.foldl (fun d p => map_records (annotate_step emoji_con p.2 (icons p.2)) d) data

/-- Ordering of index entries by value (icon code), the
`key=lambda i: i[1]` of `weather_data.py:468`. -/
def val_le (a b : String × String) : Prop := a.2 ≤ b.2

instance : DecidableRel val_le :=
  fun a b => inferInstanceAs (Decidable (a.2 ≤ b.2))

instance : IsTotal (String × String) val_le := ⟨fun a b => le_total a.2 b.2⟩

instance : IsTrans (String × String) val_le := ⟨fun _ _ _ h1 h2 => le_trans h1 h2⟩

/-- Set union of two dicts' item sets (`emoji_con.items() | missing_codes.items()`),
keeping the left operand's order and appending unseen pairs of the right. -/
def pair_union (a b : List (String × String)) : List (String × String) :=
  a ++ b.filter (fun p => !a.contains p)

/-- `all_codes = OrderedDict(sorted(emoji_con.items() | missing_codes.items(), key=lambda i: i[1]))`
(`weather_data.py:468`): union the two indices, sort by icon code, rebuild a
dict (a repeated description keeps its first position, last value). -/
def all_codes_of (emoji_con missing_codes : List (String × String)) :
    List (String × String) :=
  (List.insertionSort val_le (pair_union emoji_con missing_codes)).foldl
    (fun m p => dinsert p.1 p.2 m) []

/-- Second loop of `modify_icons` (`weather_data.py:484-494`): for every
`all_codes` entry fetch the day bytes and the night bytes (code with `d`
replaced by `n`) and record a `FullPayload`; each fetched code is appended to
the log, and a failed fetch aborts (`SystemExit` in `parse_icon_url`). -/
def build_full (fetch : String → Option (List Nat)) :
    List (String × String) → List (String × FullPayload) → List String →
    Except String (List (String × FullPayload) × List String)
  | [], acc, log => Except.ok (acc, log)
  | p :: ps, acc, log =>
    match fetch p.2 with
    | none => Except.error ("AssetFetchFailed " ++ p.2)
    | some day_bytes =>
      match fetch (night_code p.2) with
      | none => Except.error ("AssetFetchFailed " ++ night_code p.2)
      | some night_bytes =>
        build_full fetch ps
          (dinsert p.1
            { description := p.1, icon_code := p.2,
              day_bytes := b64encode day_bytes, night_bytes := b64encode night_bytes } acc)
          (log ++ [p.2, night_code p.2])

/-- `WeatherIcons.modify_icons` (`weather_data.py:463-501`): annotate the
records from `emoji_con` (first loop), then build the summary document over
`all_codes` (second loop).  Returns the annotated data, the
`full_modifications` dict, and the ordered log of codes passed to the fetch
capability. -/
def modify_icons (fetch : String → Option (List Nat))
    (emoji_con missing_codes : List (String × String)) (data : List DayItem) :
    Except String (List DayItem × List (String × FullPayload) × List String) :=
  match annotate_loop fetch emoji_con emoji_con data [] with
  | Except.error e => Except.error e
  | Except.ok (data2, log1) =>
    match build_full fetch (all_codes_of emoji_con missing_codes) [] log1 with
    | Except.error e => Except.error e
    | Except.ok (full_modifications, log2) => Except.ok (data2, full_modifications, log2)

/-- The call chain of the source: `modify_condition` ends by invoking
`WeatherIcons.modify_icons()` on its freshly built indices
(`weather_data.py:446-447`). -/
def modify_condition_and_icons (fetch : String → Option (List Nat))
    (taxonomy : List ConditionInfo) (data : List DayItem) :
    Except String (List DayItem × List (String × FullPayload) × List String) :=
  match modify_condition taxonomy data with
  | Except.error e => Except.error e
  | Except.ok (data2, emoji_con, missing_codes) => modify_icons fetch emoji_con missing_codes data2

/-- Python `round(q)` / `round(q, 0)` on our rational idealization: nearest
integer, ties to the even neighbour, computed on the numerator and
denominator (`f` is the floor of `q` and `rnum / den` its fractional part). -/
def py_round (q : ℚ) : Int :=
  let f : Int := Int.fdiv q.num q.den
  let rnum : Int := q.num - f * q.den
  if 2 * rnum < q.den then f
  else if (q.den : Int) < 2 * rnum then f + 1
  else if f % 2 = 0 then f else f + 1

/-- Python `round(q, 2)`: nearest multiple of `1/100`, ties to even.  Written
with the primitive `Rat` operations (`Rat.mul` is definitionally `·*·`). -/
def py_round2 (q : ℚ) : ℚ := mkRat (py_round (Rat.mul q (mkRat 100 1))) 100

/-- `both_degrees = lambda c_temp: (c_temp, round((c_temp * 9 / 5) + 32, 2))`
(`weather_data.py:277`), written with the primitive `Rat` operations;
`both_degrees_eq` below restates it with the field operations of `ℚ`. -/
def both_degrees (c_temp : ℚ) : ℚ × ℚ :=
  (c_temp, py_round2 (Rat.add (Rat.mul c_temp (mkRat 9 5)) (mkRat 32 1)))

/-- One hourly dictionary of the provider response consumed by
`full_weather_data`. -/
structure RawHour where
  datetime : String
  temp : ℚ
  humidity : ℚ
  conditions : String
deriving DecidableEq, Repr

/-- One day dictionary of the provider response. -/
structure RawDay where
  datetime : String
  tempmin : ℚ
  tempmax : ℚ
  hours : List RawHour
deriving DecidableEq, Repr

/-- The provider response fields read by `full_weather_data`. -/
structure RawData where
  longitude : ℚ
  latitude : ℚ
  resolvedAddress : String
  days : List RawDay
deriving DecidableEq, Repr

/-- One tuple of the `full_data` list built at `weather_data.py:292`:
location, coordinates, date, the per-day min and max temperature pair lists,
and the zipped hourly data `(hour, (Celsius, Fahrenheit), humidity,
[conditions, ''])`. -/
structure FullDay where
  location : String
  longitude : ℚ
  latitude : ℚ
  date : String
  min_temp : List (ℚ × ℚ)
  max_temp : List (ℚ × ℚ)
  hourly : List (String × (ℚ × ℚ) × Int × (String × String))
deriving DecidableEq, Repr

/-- Python `str.split('-')` on the character list: splits at every dash, so
the empty string yields `[[]]` just as `''.split('-') == ['']`. -/
def split_dash : List Char → List (List Char)
  | [] => [[]]
  | c :: cs =>
    if c = '-' then [] :: split_dash cs
    else
      match split_dash cs with
      | [] => [[c]]
      | x :: xs => (c :: x) :: xs

/-- `ParsedDate(*day_data['datetime'].split('-'))` then `f'{month}/{day}/{year}'`
(`weather_data.py:284-285`); a date string without exactly three components
makes the tuple construction raise. -/
def parse_day_date (s : String) : Option String :=
  match (split_dash s.data).map String.mk with
  | [y, m, d] => some (m ++ "/" ++ d ++ "/" ++ y)
  | _ => none

/-- The four 24-element comprehensions of `weather_data.py:286-290` zipped
together; indexing `hours[idx]` for `idx in range(24)` raises when fewer than
24 hourly entries are present. -/
def build_day_hours (day : RawDay) :
    Option (List (String × (ℚ × ℚ) × Int × (String × String))) :=
  if day.hours.length < 24 then none
  else some ((day.hours.take 24).map (fun h =>
    (h.datetime, both_degrees h.temp, py_round h.humidity, (h.conditions, ""))))

/-- `WeatherForecast.full_weather_data` (`weather_data.py:263-293`): at most
15 days, shared `min_temp`/`max_temp` pair lists computed by `both_degrees`,
and per-day zipped hourly tuples. -/
def full_weather_data (data : RawData) : Option (List FullDay) :=
  let sel := data.days.take 15
  let min_temp := sel.map (fun d => both_degrees d.tempmin)
  let max_temp := sel.map (fun d => both_degrees d.tempmax)
  sel.mapM (fun d =>
    match parse_day_date d.datetime, build_day_hours d with
    | some date, some hs =>
      some { location := data.resolvedAddress, longitude := data.longitude,
             latitude := data.latitude, date := date,
             min_temp := min_temp, max_temp := max_temp, hourly := hs }
    | _, _ => none)

/-- A minimal hourly record as built by `data_to_json` (condition text `c`,
empty emoji). -/
def sample_hour (c : String) : HourlyEntry :=
  { hour := "00:00:00", temperature := (mkRat 0 1, mkRat 32 1), humidity := mkRat 50 1,
    conditions := c, emoji := EmojiField.text "" }

/-- A minimal day item whose hourly records carry the given condition texts. -/
def sample_day (cs : List String) : DayItem :=
  { location := "New York", longitude := mkRat 0 1, latitude := mkRat 0 1, date := "1/1/2024",
    min_temp := (mkRat 0 1, mkRat 32 1), max_temp := (mkRat 0 1, mkRat 32 1),
    hourly_data := cs.map sample_hour }

/-- A fetch capability that fails exactly for the icon code `09d`. -/
def fetch_fail_09 (code : String) : Option (List Nat) :=
  if code == "09d" then none else some [0]

/-- The icon code of the first taxonomy entry bearing a given description. -/
def first_code (taxonomy : List ConditionInfo) (desc : String) : Option String :=
  (taxonomy.find? (fun i => i.description == desc)).map (fun i => i.icon_code)

/-- The single hourly record of the C6 witness run, after resolution. -/
def c6_hour_resolved : HourlyEntry :=
  { hour := "00:00:00", temperature := (mkRat 0 1, mkRat 32 1),
    humidity := mkRat 50 1, conditions := "Clear Sky",
    emoji := EmojiField.text "01d" }

/-- The single day of the C6 witness run, after resolution. -/
def c6_day_resolved : DayItem :=
  { location := "New York", longitude := mkRat 0 1, latitude := mkRat 0 1,
    date := "1/1/2024", min_temp := (mkRat 0 1, mkRat 32 1),
    max_temp := (mkRat 0 1, mkRat 32 1),
    hourly_data := [c6_hour_resolved] }

/-- The hourly records of the C7 witness run, after resolution (the raw data
lists `shower rain` before `rain`, so first-seen order differs from the
lexicographic order of the returned index). -/
def c7_hour1 : HourlyEntry :=
  { hour := "00:00:00", temperature := (mkRat 0 1, mkRat 32 1),
    humidity := mkRat 50 1, conditions := "Shower Rain",
    emoji := EmojiField.text "09d" }

def c7_hour2 : HourlyEntry :=
  { hour := "00:00:00", temperature := (mkRat 0 1, mkRat 32 1),
    humidity := mkRat 50 1, conditions := "Rain",
    emoji := EmojiField.text "10d" }

/-- The single day of the C7 witness run, after resolution. -/
def c7_day_resolved : DayItem :=
  { location := "New York", longitude := mkRat 0 1, latitude := mkRat 0 1,
    date := "1/1/2024", min_temp := (mkRat 0 1, mkRat 32 1),
    max_temp := (mkRat 0 1, mkRat 32 1),
    hourly_data := [c7_hour1, c7_hour2] }

/-- The net effect of the annotation loop on one record: if its condition is
a ConditionIndex key, the looked-up code's payload is attached, otherwise the
record is untouched. -/
def annotate_net (icons : String → List Nat) (ec : List (String × String))
    (r : HourlyEntry) : HourlyEntry :=
  match dlookup ec r.conditions with
  | some c => set_emoji c (icons c) r
  | none => r

/-- The hourly input of the C10 witness run. -/
def c10_hour : RawHour :=
  { datetime := "00:00:00", temp := mkRat 1 3, humidity := mkRat 50 1,
    conditions := "clear sky" }

/-- The one-day input of the C10 witness run. -/
def c10_raw : RawData :=
  { longitude := mkRat 1 2, latitude := mkRat 3 2, resolvedAddress := "NYC",
    days := [{ datetime := "2024-01-02", tempmin := mkRat 0 1, tempmax := mkRat 25 1,
               hours := List.replicate 24 c10_hour }] }

/-- The expected `full_weather_data` output for the C10 witness run. -/
def c10_day_out : FullDay :=
  { location := "NYC", longitude := mkRat 1 2, latitude := mkRat 3 2,
    date := "01/02/2024", min_temp := [(mkRat 0 1, mkRat 32 1)],
    max_temp := [(mkRat 25 1, mkRat 77 1)],
    hourly := List.replicate 24 ("00:00:00", (mkRat 1 3, mkRat 163 5), (50 : Int),
      ("clear sky", "")) }

/-- The second component of `both_degrees` is the two-decimal rounding of
`c * 9 / 5 + 32`, in the usual field notation. -/
theorem both_degrees_eq (c_temp : ℚ) :
    both_degrees c_temp = (c_temp, py_round2 (c_temp * 9 / 5 + 32)) := by
  have h1 : Rat.mul c_temp (mkRat 9 5) = c_temp * mkRat 9 5 := rfl
  have h2 : ∀ a b : ℚ, Rat.add a b = a + b := fun _ _ => rfl
  have h3 : mkRat 9 5 = 9 / 5 := by rw [Rat.mkRat_eq_divInt, Rat.divInt_eq_div]; norm_num
  have h4 : mkRat 32 1 = 32 := by rw [Rat.mkRat_eq_divInt, Rat.divInt_eq_div]; norm_num
  rw [both_degrees, h2, h1, h3, h4]
  ring_nf

theorem lcsF_le_left (f : Nat) (l1 l2 : List Char) : lcsF f l1 l2 ≤ l1.length := by
  induction f generalizing l1 l2 with
  | zero => simp [lcsF]
  | succ f ih =>
    cases l1 with
    | nil => simp [lcsF]
    | cons a as =>
      cases l2 with
      | nil => simp [lcsF]
      | cons b bs =>
        by_cases h : a = b
        · simpa [lcsF, h] using Nat.succ_le_succ (ih as bs)
        · simp only [lcsF, if_neg h]
          exact max_le (ih (a :: as) bs) (le_trans (ih as (b :: bs)) (by simp))

theorem lcsF_le_right (f : Nat) (l1 l2 : List Char) : lcsF f l1 l2 ≤ l2.length := by
  induction f generalizing l1 l2 with
  | zero => simp [lcsF]
  | succ f ih =>
    cases l1 with
    | nil => simp [lcsF]
    | cons a as =>
      cases l2 with
      | nil => simp [lcsF]
      | cons b bs =>
        by_cases h : a = b
        · simpa [lcsF, h] using Nat.succ_le_succ (ih as bs)
        · simp only [lcsF, if_neg h]
          exact max_le (le_trans (ih (a :: as) bs) (by simp)) (ih as (b :: bs))

theorem lcs_le_left (l1 l2 : List Char) : lcs l1 l2 ≤ l1.length :=
  lcsF_le_left _ l1 l2

theorem lcs_le_right (l1 l2 : List Char) : lcs l1 l2 ≤ l2.length :=
  lcsF_le_right _ l1 l2

theorem fuzz_ratio_eq_div (s1 s2 : String) (h : s1.data.length + s2.data.length ≠ 0) :
    fuzz_ratio s1 s2 =
      200 * (lcs s1.data s2.data : ℚ) / ((s1.data.length + s2.data.length : Nat) : ℚ) := by
  rw [fuzz_ratio, if_neg h, Rat.mkRat_eq_divInt, Rat.divInt_eq_div]
  push_cast
  ring

theorem fuzz_ratio_nonneg (s1 s2 : String) : 0 ≤ fuzz_ratio s1 s2 := by
  by_cases h : s1.data.length + s2.data.length = 0
  · rw [fuzz_ratio, if_pos h]; norm_num
  · rw [fuzz_ratio_eq_div s1 s2 h]; positivity

theorem fuzz_ratio_le_100 (s1 s2 : String) : fuzz_ratio s1 s2 ≤ 100 := by
  by_cases h : s1.data.length + s2.data.length = 0
  · rw [fuzz_ratio, if_pos h]
  · rw [fuzz_ratio_eq_div s1 s2 h]
    have hp : (0 : ℚ) < ((s1.data.length + s2.data.length : Nat) : ℚ) := by
      have : 0 < s1.data.length + s2.data.length := Nat.pos_of_ne_zero h
      exact_mod_cast this
    rw [div_le_iff₀ hp]
    have h1 : (lcs s1.data s2.data : ℚ) ≤ (s1.data.length : ℚ) := by
      exact_mod_cast lcs_le_left s1.data s2.data
    have h2 : (lcs s1.data s2.data : ℚ) ≤ (s2.data.length : ℚ) := by
      exact_mod_cast lcs_le_right s1.data s2.data
    push_cast
    nlinarith [h1, h2]

theorem extractOne_foldl_spec (q : String) :
    ∀ (cs : List String) (a : String × ℚ), a.2 = fuzz_ratio q a.1 →
      ∃ b, cs.foldl
          (fun best c2 => if best.2 < fuzz_ratio q c2 then (c2, fuzz_ratio q c2) else best) a
        = (b, fuzz_ratio q b) ∧ (b = a.1 ∨ b ∈ cs) := by
  intro cs
  induction cs with
  | nil => intro a ha; exact ⟨a.1, by simp [← ha], Or.inl rfl⟩
  | cons c cs ih =>
    intro a ha
    simp only [List.foldl_cons]
    by_cases h : a.2 < fuzz_ratio q c
    · rw [if_pos h]
      obtain ⟨b, hb, hmem⟩ := ih (c, fuzz_ratio q c) rfl
      exact ⟨b, hb, by rcases hmem with h1 | h1 <;> simp [h1]⟩
    · rw [if_neg h]
      obtain ⟨b, hb, hmem⟩ := ih a ha
      exact ⟨b, hb, by rcases hmem with h1 | h1 <;> simp [h1]⟩

theorem extractOne_mem (q : String) (choices : List String) (h : choices ≠ []) :
    ∃ b, extractOne q choices = some (b, fuzz_ratio q b) ∧ b ∈ choices := by
  match choices with
  | [] => exact absurd rfl h
  | c :: cs =>
    obtain ⟨b, hb, hmem⟩ := extractOne_foldl_spec q cs (c, fuzz_ratio q c) rfl
    refine ⟨b, ?_, ?_⟩
    · simp [extractOne, hb]
    · rcases hmem with h1 | h1 <;> simp [h1]

/-- C4: for every non-empty candidate list (the taxonomy descriptions) and
every non-empty raw phrase, the matcher of `weather_data.py:434` returns a
best candidate that is a member of the candidate list, with a score in the
closed interval `[0, 100]`. -/
theorem match_condition_mem_score (raw_phrase : String) (candidates : List String)
    (hc : candidates ≠ []) (_hp : raw_phrase ≠ "") :
    ∃ b s, match_condition raw_phrase candidates = some (b, s) ∧
      b ∈ candidates ∧ 0 ≤ s ∧ s ≤ 100 := by
  obtain ⟨b, hb, hmem⟩ := extractOne_mem (py_lower raw_phrase) candidates hc
  exact ⟨b, fuzz_ratio (py_lower raw_phrase) b, hb, hmem,
    fuzz_ratio_nonneg _ _, fuzz_ratio_le_100 _ _⟩

theorem match_condition_mem_score_witness :
    (["Clear Sky", "Few Clouds"] : List String) ≠ [] ∧ ("clear sky " : String) ≠ "" ∧
    ∃ b s, match_condition "clear sky " ["Clear Sky", "Few Clouds"] = some (b, s) ∧
      b ∈ ["Clear Sky", "Few Clouds"] ∧ 0 ≤ s ∧ s ≤ 100 :=
  ⟨by decide, by decide,
    match_condition_mem_score "clear sky " ["Clear Sky", "Few Clouds"] (by decide) (by decide)⟩

/-- C9 counterexample: matching is not case-insensitive in the candidate
descriptions.  With the raw phrase `"a"`, the candidate list `["A"]` scores 0
while its case-variant `["a"]` scores 100: changing only the letter case of
the candidate descriptions changes the similarity score (the source lowercases
the query but passes the candidates to `rapidfuzz` unprocessed). -/
theorem match_condition_case_cex :
    match_condition "a" ["A"] = some ("A", 0) ∧
    match_condition "a" ["a"] = some ("a", 100) ∧
    ((match_condition "a" ["A"]).map (fun p => p.2) ≠
      (match_condition "a" ["a"]).map (fun p => p.2)) := by
  refine ⟨by decide, by decide, by decide⟩

/-- C9 amended: matching is case-insensitive in the raw phrase only.  The
query is lowercased before scoring, so two raw phrases with the same
lowercasing (in particular, two case variants of the same phrase) produce
identical similarity scores and the same selected best candidate; case
changes in the candidate descriptions are not neutral. -/
theorem match_condition_lower_invariant (p q : String) (cands : List String)
    (h : py_lower p = py_lower q) :
    match_condition p cands = match_condition q cands := by
  unfold match_condition
  rw [h]

theorem match_condition_lower_invariant_witness :
    py_lower "CLEAR SKY" = py_lower "clear sky" ∧
    match_condition "CLEAR SKY" ["Clear Sky", "Few Clouds"] =
      match_condition "clear sky" ["Clear Sky", "Few Clouds"] :=
  ⟨by decide,
    match_condition_lower_invariant "CLEAR SKY" "clear sky" ["Clear Sky", "Few Clouds"]
      (by decide)⟩

theorem resolve_hours_empty_taxonomy (ec : List (String × String)) (hs : List HourlyEntry) :
    resolve_hours [] ec hs =
      match hs with
      | [] => Except.ok ([], ec)
      | _ :: _ => Except.error "IndexError" := by
  cases hs with
  | nil => rfl
  | cons h hs => rfl

theorem resolve_days_empty_taxonomy (ec : List (String × String)) (data : List DayItem) :
    resolve_days [] ec data =
      if data.all (fun d => d.hourly_data.isEmpty) then Except.ok (data, ec)
      else Except.error "IndexError" := by
  induction data generalizing ec with
  | nil => rfl
  | cons d ds ih =>
    rw [resolve_days, resolve_hours_empty_taxonomy]
    cases hd : d.hourly_data with
    | nil =>
      have hde : ({ d with hourly_data := [] } : DayItem) = d := by
        cases d
        simp only at hd
        simp [hd]
      dsimp only
      rw [ih ec]
      by_cases h : ds.all (fun d => d.hourly_data.isEmpty)
      · rw [if_pos h]
        have hall : ((d :: ds).all fun d => d.hourly_data.isEmpty) = true := by
          simp [List.all_cons, h, hd]
        rw [hall, if_pos rfl]
        dsimp only
        rw [hde]
      · rw [if_neg h]
        have hall : ¬ ((d :: ds).all fun d => d.hourly_data.isEmpty) = true := by
          simp [List.all_cons, h]
        rw [if_neg hall]
    | cons h hs =>
      have hall : ¬ ((d :: ds).all fun d => d.hourly_data.isEmpty) = true := by
        simp [List.all_cons, hd]
      rw [if_neg hall]

/-- C1 (corrected): with an empty taxonomy, `modify_condition` completes with
empty indices only when the dataset contains no hourly records at all;
as soon as one hourly record exists, the matcher returns `None`, the record's
condition is overwritten with the empty string, and the lookup
`list(filter(...))[0]` at `weather_data.py:437` raises `IndexError`, aborting
resolution rather than leaving conditions untouched. -/
theorem modify_condition_empty_taxonomy (data : List DayItem) :
    modify_condition [] data =
      if data.all (fun d => d.hourly_data.isEmpty) then Except.ok (data, [], [])
      else Except.error "IndexError" := by
  rw [modify_condition, resolve_days_empty_taxonomy]
  by_cases h : data.all (fun d => d.hourly_data.isEmpty)
  · rw [if_pos h, if_pos h]
    rfl
  · rw [if_neg h, if_neg h]

/-- C1 counterexample: with the empty taxonomy and a dataset holding a single
hourly record, resolution does not run to completion: it raises `IndexError`
(so it neither returns empty indices nor preserves the record's raw
condition text). -/
theorem modify_condition_empty_taxonomy_cex :
    modify_condition [] [sample_day ["Clear"]] = Except.error "IndexError" := by
  with_unfolding_all rfl

theorem annotate_loop_fail (fetch : String → Option (List Nat))
    (emoji_con : List (String × String)) :
    ∀ (l : List (String × String)) (data : List DayItem) (log : List String),
      (∃ p ∈ l, fetch p.2 = none) →
      ∃ e, annotate_loop fetch emoji_con l data log = Except.error e := by
  intro l
  induction l with
  | nil => intro data log h; simp at h
  | cons p ps ih =>
    intro data log h
    rw [annotate_loop]
    cases hf : fetch p.2 with
    | none => exact ⟨_, rfl⟩
    | some b =>
      obtain ⟨q, hq, hfq⟩ := h
      have hq2 : q ∈ ps := by
        rcases List.mem_cons.mp hq with h1 | h1
        · rw [h1, hf] at hfq; cases hfq
        · exact h1
      exact ih _ _ ⟨q, hq2, hfq⟩

/-- C2 amended: if the icon-fetch capability fails for any code recorded in
the ConditionIndex, the run does not complete with a partial icon map: the
`SystemExit` raised in `parse_icon_url` aborts `modify_icons` (no icon map at
all is produced and remaining codes are not resolved). -/
theorem modify_icons_fetch_failure (fetch : String → Option (List Nat))
    (emoji_con missing_codes : List (String × String)) (data : List DayItem)
    (h : ∃ p ∈ emoji_con, fetch p.2 = none) :
    ∃ e, modify_icons fetch emoji_con missing_codes data = Except.error e := by
  obtain ⟨e, he⟩ := annotate_loop_fail fetch emoji_con emoji_con data [] h
  exact ⟨e, by rw [modify_icons, he]⟩

theorem modify_icons_fetch_failure_witness :
    (∃ p ∈ ([("Shower Rain", "09d")] : List (String × String)), fetch_fail_09 p.2 = none) ∧
    ∃ e, modify_icons fetch_fail_09 [("Shower Rain", "09d")] [] [] = Except.error e :=
  ⟨⟨("Shower Rain", "09d"), by decide, by decide⟩,
    modify_icons_fetch_failure fetch_fail_09 [("Shower Rain", "09d")] [] []
      ⟨("Shower Rain", "09d"), by decide, by decide⟩⟩

/-- C2 counterexample: a full run (resolution followed by icon resolution) in
which the fetch capability fails for the code `09d` but succeeds for `10d`
does not complete with an icon map lacking only `09d`: it aborts with the
fetch error, producing no icon map and no annotated records at all. -/
theorem icon_fetch_partial_cex :
    modify_condition_and_icons fetch_fail_09
      [⟨"10d", "Rain"⟩, ⟨"09d", "Shower Rain"⟩]
      [sample_day ["rain", "shower rain"]] = Except.error "AssetFetchFailed 09d" := by
  with_unfolding_all rfl

theorem annotate_loop_log (fetch : String → Option (List Nat))
    (emoji_con : List (String × String)) :
    ∀ (l : List (String × String)) (data : List DayItem) (log : List String)
      (d2 : List DayItem) (log2 : List String),
      annotate_loop fetch emoji_con l data log = Except.ok (d2, log2) →
      log2 = log ++ l.map (fun p => p.2) := by
  intro l
  induction l with
  | nil =>
    intro data log d2 log2 h
    rw [annotate_loop] at h
    injection h with h
    injection h with hA hB
    simp [← hB]
  | cons p ps ih =>
    intro data log d2 log2 h
    rw [annotate_loop] at h
    cases hf : fetch p.2 with
    | none => rw [hf] at h; cases h
    | some b =>
      rw [hf] at h
      have := ih _ _ _ _ h
      simp [this]

theorem build_full_log (fetch : String → Option (List Nat)) :
    ∀ (l : List (String × String)) (acc : List (String × FullPayload)) (log : List String)
      (full : List (String × FullPayload)) (log2 : List String),
      build_full fetch l acc log = Except.ok (full, log2) →
      log2 = log ++ l.flatMap (fun p => [p.2, night_code p.2]) := by
  intro l
  induction l with
  | nil =>
    intro acc log full log2 h
    rw [build_full] at h
    injection h with h
    injection h with hA hB
    simp [← hB]
  | cons p ps ih =>
    intro acc log full log2 h
    rw [build_full] at h
    cases hf : fetch p.2 with
    | none => rw [hf] at h; cases h
    | some db =>
      rw [hf] at h
      cases hf2 : fetch (night_code p.2) with
      | none => rw [hf2] at h; cases h
      | some nb =>
        rw [hf2] at h
        have := ih _ _ _ _ h
        simp [this]

/-- C3 (corrected): the sequence of codes passed to the fetch capability by a
successful `modify_icons` run is fully determined, but it is not one day plus
one night fetch per unique code: the first loop fetches the day icon once per
ConditionIndex *entry*, and the second loop re-fetches the day and night icons
once per entry of `all_codes` (the union of ConditionIndex and MissingIndex).
There is no cache, so a code required by both loops is fetched repeatedly. -/
theorem modify_icons_fetch_log (fetch : String → Option (List Nat))
    (emoji_con missing_codes : List (String × String)) (data d2 : List DayItem)
    (full : List (String × FullPayload)) (log : List String)
    (h : modify_icons fetch emoji_con missing_codes data = Except.ok (d2, full, log)) :
    log = dvalues emoji_con ++
      (all_codes_of emoji_con missing_codes).flatMap (fun p => [p.2, night_code p.2]) := by
  rw [modify_icons] at h
  cases h1 : annotate_loop fetch emoji_con emoji_con data [] with
  | error e => rw [h1] at h; cases h
  | ok r =>
    obtain ⟨data2, log1⟩ := r
    rw [h1] at h
    dsimp only at h
    cases h2 : build_full fetch (all_codes_of emoji_con missing_codes) [] log1 with
    | error e => rw [h2] at h; cases h
    | ok r2 =>
      obtain ⟨full2, log3⟩ := r2
      rw [h2] at h
      dsimp only at h
      have hlog : log = log3 := by
        injection h with h
        injection h with hA hB
        injection hB with hB1 hB2
        exact hB2.symm
      have e1 : log1 = dvalues emoji_con := by
        simpa [dvalues] using annotate_loop_log fetch emoji_con emoji_con data [] data2 log1 h1
      have e2 : log3 = log1 ++
          (all_codes_of emoji_con missing_codes).flatMap (fun p => [p.2, night_code p.2]) :=
        build_full_log fetch (all_codes_of emoji_con missing_codes) [] log1 full2 log3 h2
      rw [hlog, e2, e1]

theorem modify_icons_fetch_log_witness :
    (["01d", "01d", "01n"] : List String) =
      dvalues [("Clear Sky", "01d")] ++
        (all_codes_of [("Clear Sky", "01d")] []).flatMap (fun p => [p.2, night_code p.2]) :=
  modify_icons_fetch_log (fun _ => some [0]) [("Clear Sky", "01d")] [] [] []
    [("Clear Sky",
      { description := "Clear Sky", icon_code := "01d", day_bytes := "AA==",
        night_bytes := "AA==" })]
    ["01d", "01d", "01n"] (by with_unfolding_all rfl)

/-- C3 counterexample: a full run needing exactly one unique icon code `01d`
invokes the fetch capability three times, with the day code `01d` fetched
twice (once by the annotation loop and once by the summary loop) and the
night code `01n` once — not exactly one day fetch plus one night fetch. -/
theorem icon_fetch_count_cex :
    (modify_condition_and_icons (fun _ => some [0]) [⟨"01d", "Clear Sky"⟩]
        [sample_day ["clear sky"]]).map (fun t => t.2.2) =
      Except.ok ["01d", "01d", "01n"] ∧
    (["01d", "01d", "01n"] : List String).count "01d" = 2 := by
  constructor
  · with_unfolding_all rfl
  · decide

theorem emoji_for_eq_first_code : ∀ (taxonomy : List ConditionInfo),
    (∀ i ∈ taxonomy, i.icon_code ≠ "") → ∀ d : String,
      emoji_for (unpack_taxonomy taxonomy) d = first_code taxonomy d := by
  intro t
  induction t with
  | nil => intro _ d; rfl
  | cons i t ih =>
    intro h d
    have hi : (i.icon_code != "") = true := bne_iff_ne.mpr (h i (by simp))
    by_cases hd : i.description = d
    · simp [emoji_for, unpack_taxonomy, first_code, List.filter_cons, List.find?_cons, hd, hi]
    · have hd1 : ((i.icon_code, i.description).2 == d) = false := by
        simp [hd]
      have hd2 : (i.description == d) = false := by
        simp [hd]
      have hrec := ih (fun j hj => h j (by simp [hj])) d
      simp only [emoji_for, unpack_taxonomy, List.map_cons, List.filter_cons, hd1,
        Bool.false_and, if_neg Bool.false_ne_true, first_code, List.find?_cons, hd2] at *
      exact hrec

theorem dinsert_mem {β : Type} (k : String) (v : β) (m : List (String × β))
    (p : String × β) (hp : p ∈ dinsert k v m) : p = (k, v) ∨ p ∈ m := by
  rw [dinsert] at hp
  by_cases h : m.any (fun q => q.1 == k)
  · rw [if_pos h] at hp
    obtain ⟨q, hq, hical⟩ := List.mem_map.mp hp
    by_cases h2 : q.1 == k
    · rw [if_pos h2] at hical
      exact Or.inl hical.symm
    · rw [if_neg h2] at hical
      exact Or.inr (hical ▸ hq)
  · rw [if_neg h] at hp
    rcases List.mem_append.mp hp with h1 | h1
    · exact Or.inr h1
    · exact Or.inl (List.mem_singleton.mp h1)

theorem resolve_hour_ok (taxonomy : List ConditionInfo) (ec : List (String × String))
    (h : HourlyEntry) (htax : taxonomy ≠ [])
    (hcode : ∀ i ∈ taxonomy, i.icon_code ≠ "") :
    ∃ b code h2, resolve_hour taxonomy ec h = Except.ok (h2, dinsert b code ec) ∧
      first_code taxonomy b = some code := by
  have hmap : taxonomy.map (fun i => i.description) ≠ [] := by
    intro hcontra
    exact htax (List.map_eq_nil_iff.mp hcontra)
  obtain ⟨b, hb, hmem⟩ := extractOne_mem (py_lower h.conditions) _ hmap
  obtain ⟨i, hi, hib⟩ := List.mem_map.mp hmem
  have hsome : (taxonomy.find? (fun j => j.description == b)).isSome := by
    rw [List.find?_isSome]
    exact ⟨i, hi, by simp [hib]⟩
  obtain ⟨j, hj⟩ := Option.isSome_iff_exists.mp hsome
  have hfc : first_code taxonomy b = some j.icon_code := by
    rw [first_code, hj]; rfl
  have hef : emoji_for (unpack_taxonomy taxonomy) b = some j.icon_code := by
    rw [emoji_for_eq_first_code taxonomy hcode b, hfc]
  refine ⟨b, j.icon_code,
    { h with conditions := b, emoji := EmojiField.text j.icon_code }, ?_, hfc⟩
  simp only [resolve_hour, hb, hef]

theorem resolve_hours_ok (taxonomy : List ConditionInfo) (htax : taxonomy ≠ [])
    (hcode : ∀ i ∈ taxonomy, i.icon_code ≠ "") :
    ∀ (hs : List HourlyEntry) (ec : List (String × String)),
      (∀ p ∈ ec, first_code taxonomy p.1 = some p.2) →
      ∃ hs2 ec2, resolve_hours taxonomy ec hs = Except.ok (hs2, ec2) ∧
        ∀ p ∈ ec2, first_code taxonomy p.1 = some p.2 := by
  intro hs
  induction hs with
  | nil => intro ec hec; exact ⟨[], ec, rfl, hec⟩
  | cons h hs ih =>
    intro ec hec
    obtain ⟨b, code, h2, hstep, hfc⟩ := resolve_hour_ok taxonomy ec h htax hcode
    have hec2 : ∀ p ∈ dinsert b code ec, first_code taxonomy p.1 = some p.2 := by
      intro p hp
      rcases dinsert_mem b code ec p hp with h1 | h1
      · rw [h1]; exact hfc
      · exact hec p h1
    obtain ⟨hs2, ec3, hrec, hec3⟩ := ih (dinsert b code ec) hec2
    refine ⟨h2 :: hs2, ec3, ?_, hec3⟩
    simp only [resolve_hours, hstep, hrec]

theorem resolve_days_ok (taxonomy : List ConditionInfo) (htax : taxonomy ≠ [])
    (hcode : ∀ i ∈ taxonomy, i.icon_code ≠ "") :
    ∀ (data : List DayItem) (ec : List (String × String)),
      (∀ p ∈ ec, first_code taxonomy p.1 = some p.2) →
      ∃ d2 ec2, resolve_days taxonomy ec data = Except.ok (d2, ec2) ∧
        ∀ p ∈ ec2, first_code taxonomy p.1 = some p.2 := by
  intro data
  induction data with
  | nil => intro ec hec; exact ⟨[], ec, rfl, hec⟩
  | cons d ds ih =>
    intro ec hec
    obtain ⟨hs2, ec2, hh, hec2⟩ := resolve_hours_ok taxonomy htax hcode d.hourly_data ec hec
    obtain ⟨ds2, ec3, hd, hec3⟩ := ih ec2 hec2
    refine ⟨{ d with hourly_data := hs2 } :: ds2, ec3, ?_, hec3⟩
    simp only [resolve_days, hh, hd]

/-- C5: when taxonomy entries share a description string (with well-formed,
non-empty icon codes), resolution does not crash, and every ConditionIndex
entry records the icon code of the *first* taxonomy entry bearing that
description, in taxonomy iteration order; the choice is stable across runs
because the resolver is a pure function of its inputs. -/
theorem resolve_duplicate_description (taxonomy : List ConditionInfo) (data : List DayItem)
    (htax : taxonomy ≠ []) (hcode : ∀ i ∈ taxonomy, i.icon_code ≠ "") :
    ∃ d2 ec mc, modify_condition taxonomy data = Except.ok (d2, ec, mc) ∧
      ∀ p ∈ ec, first_code taxonomy p.1 = some p.2 := by
  obtain ⟨d2, ec0, hres, hok⟩ := resolve_days_ok taxonomy htax hcode data [] (by simp)
  refine ⟨d2, sort_index ec0,
    ((unpack_taxonomy taxonomy).filter
        (fun p => !(dvalues ec0).contains p.1)).foldl (fun m p => dinsert p.2 p.1 m) [],
    ?_, ?_⟩
  · rw [modify_condition, hres]
  · intro p hp
    exact hok p ((List.perm_insertionSort key_le ec0).mem_iff.mp hp)

theorem resolve_duplicate_description_witness :
    ([⟨"01d", "Mist"⟩, ⟨"02d", "Mist"⟩] : List ConditionInfo) ≠ [] ∧
    (∀ i ∈ ([⟨"01d", "Mist"⟩, ⟨"02d", "Mist"⟩] : List ConditionInfo), i.icon_code ≠ "") ∧
    ∃ d2 ec mc,
      modify_condition [⟨"01d", "Mist"⟩, ⟨"02d", "Mist"⟩] [sample_day ["mist"]] =
        Except.ok (d2, ec, mc) ∧
      ∀ p ∈ ec, first_code [⟨"01d", "Mist"⟩, ⟨"02d", "Mist"⟩] p.1 = some p.2 :=
  ⟨by decide, by decide,
    resolve_duplicate_description [⟨"01d", "Mist"⟩, ⟨"02d", "Mist"⟩] [sample_day ["mist"]]
      (by decide) (by decide)⟩

theorem fold_dinsert_mem :
    ∀ (l m0 : List (String × String)) (p : String × String),
      p ∈ l.foldl (fun m q => dinsert q.2 q.1 m) m0 → p ∈ m0 ∨ (p.2, p.1) ∈ l := by
  intro l
  induction l with
  | nil => intro m0 p hp; exact Or.inl hp
  | cons q l ih =>
    intro m0 p hp
    rcases ih (dinsert q.2 q.1 m0) p hp with h1 | h1
    · rcases dinsert_mem q.2 q.1 m0 p h1 with h2 | h2
      · right
        rw [h2]
        simp
      · exact Or.inl h2
    · right
      simp [h1]

theorem mem_dkeys_dinsert_self (k v : String) (m : List (String × String)) :
    k ∈ dkeys (dinsert k v m) := by
  rw [dinsert]
  by_cases h : m.any (fun p => p.1 == k)
  · rw [if_pos h]
    obtain ⟨q, hq, hqk⟩ := List.any_eq_true.mp h
    have hqk2 : q.1 = k := by simpa using hqk
    refine List.mem_map.mpr ⟨(k, v), ?_, rfl⟩
    refine List.mem_map.mpr ⟨q, hq, ?_⟩
    rw [if_pos (by simpa using hqk2)]
  · rw [if_neg h]
    simp [dkeys]

theorem mem_dkeys_dinsert_of (k2 k v : String) (m : List (String × String))
    (h : k2 ∈ dkeys m) : k2 ∈ dkeys (dinsert k v m) := by
  rw [dinsert]
  obtain ⟨q, hq, hqk⟩ := List.mem_map.mp h
  by_cases hc : m.any (fun p => p.1 == k)
  · rw [if_pos hc]
    by_cases hqkk : q.1 == k
    · refine List.mem_map.mpr ⟨(k, v), ?_, ?_⟩
      · exact List.mem_map.mpr ⟨q, hq, by rw [if_pos hqkk]⟩
      · have : q.1 = k := by simpa using hqkk
        rw [← hqk, this]
    · refine List.mem_map.mpr ⟨q, ?_, hqk⟩
      exact List.mem_map.mpr ⟨q, hq, by rw [if_neg hqkk]⟩
  · rw [if_neg hc]
    rw [dkeys, List.map_append]
    exact List.mem_append_left _ (List.mem_map.mpr ⟨q, hq, hqk⟩)

theorem fold_dinsert_key :
    ∀ (l m0 : List (String × String)) (q : String × String), q ∈ l →
      q.2 ∈ dkeys (l.foldl (fun m r => dinsert r.2 r.1 m) m0) := by
  intro l
  induction l with
  | nil => intro m0 q hq; cases hq
  | cons r l ih =>
    intro m0 q hq
    rcases List.mem_cons.mp hq with h1 | h1
    · subst h1
      have hbase : q.2 ∈ dkeys (dinsert q.2 q.1 m0) := mem_dkeys_dinsert_self q.2 q.1 m0
      clear hq
      -- push membership through the remaining folds
      have : ∀ (l2 : List (String × String)) (m1 : List (String × String)) (k : String),
          k ∈ dkeys m1 → k ∈ dkeys (l2.foldl (fun m r => dinsert r.2 r.1 m) m1) := by
        intro l2
        induction l2 with
        | nil => intro m1 k hk; exact hk
        | cons s l2 ih2 =>
          intro m1 k hk
          exact ih2 (dinsert s.2 s.1 m1) k (mem_dkeys_dinsert_of k s.2 s.1 m1 hk)
      exact this l (dinsert q.2 q.1 m0) q.2 hbase
    · exact ih (dinsert r.2 r.1 m0) q h1

/-- C6: after `modify_condition` completes, the MissingIndex consists exactly
of the taxonomy entries whose icon code does not occur among the
ConditionIndex values: every MissingIndex value is absent from the
ConditionIndex values (so the two value sets are disjoint), every taxonomy
entry with an unused icon code contributes its description as a MissingIndex
key, and every MissingIndex binding comes from a taxonomy entry. -/
theorem missing_index_exact (taxonomy : List ConditionInfo) (data d2 : List DayItem)
    (ec mc : List (String × String))
    (h : modify_condition taxonomy data = Except.ok (d2, ec, mc)) :
    (∀ p ∈ mc, p.2 ∉ dvalues ec) ∧
    (∀ i ∈ taxonomy, i.icon_code ∉ dvalues ec → i.description ∈ dkeys mc) ∧
    (∀ p ∈ mc, ∃ i ∈ taxonomy, i.description = p.1 ∧ i.icon_code = p.2) := by
  rw [modify_condition] at h
  cases hres : resolve_days taxonomy [] data with
  | error e => rw [hres] at h; cases h
  | ok r =>
    obtain ⟨d0, ec0⟩ := r
    rw [hres] at h
    dsimp only at h
    injection h with h
    injection h with h1 h23
    injection h23 with h2 h3
    subst h2
    subst h3
    have hvals : ∀ a, a ∈ dvalues (sort_index ec0) ↔ a ∈ dvalues ec0 := by
      intro a
      exact ((List.perm_insertionSort key_le ec0).map (fun p => p.2)).mem_iff
    refine ⟨?_, ?_, ?_⟩
    · intro p hp
      rcases fold_dinsert_mem _ [] p hp with hmem | hmem
      · cases hmem
      · obtain ⟨hq, hpred⟩ := List.mem_filter.mp hmem
        intro hcontra
        rw [hvals] at hcontra
        simp at hpred
        exact hpred hcontra
    · intro i hi hnv
      have hmem : (i.icon_code, i.description) ∈
          (unpack_taxonomy taxonomy).filter (fun p => !(dvalues ec0).contains p.1) := by
        rw [List.mem_filter]
        refine ⟨List.mem_map.mpr ⟨i, hi, rfl⟩, ?_⟩
        rw [hvals] at hnv
        simpa using hnv
      simpa using fold_dinsert_key _ [] _ hmem
    · intro p hp
      rcases fold_dinsert_mem _ [] p hp with hmem | hmem
      · cases hmem
      · obtain ⟨hq, _⟩ := List.mem_filter.mp hmem
        obtain ⟨i, hi, heq⟩ := List.mem_map.mp hq
        refine ⟨i, hi, ?_, ?_⟩
        · exact congrArg Prod.snd heq
        · exact congrArg Prod.fst heq

theorem missing_index_exact_witness :
    (∀ p ∈ ([("Few Clouds", "02d")] : List (String × String)),
      p.2 ∉ dvalues [("Clear Sky", "01d")]) ∧
    (∀ i ∈ ([⟨"01d", "Clear Sky"⟩, ⟨"02d", "Few Clouds"⟩] : List ConditionInfo),
      i.icon_code ∉ dvalues [("Clear Sky", "01d")] →
        i.description ∈ dkeys [("Few Clouds", "02d")]) ∧
    (∀ p ∈ ([("Few Clouds", "02d")] : List (String × String)),
      ∃ i ∈ ([⟨"01d", "Clear Sky"⟩, ⟨"02d", "Few Clouds"⟩] : List ConditionInfo),
        i.description = p.1 ∧ i.icon_code = p.2) :=
  missing_index_exact [⟨"01d", "Clear Sky"⟩, ⟨"02d", "Few Clouds"⟩]
    [sample_day ["clear sky"]] [c6_day_resolved]
    [("Clear Sky", "01d")] [("Few Clouds", "02d")] (by with_unfolding_all rfl)

/-- C7: the ConditionIndex returned by `modify_condition` (and handed to
`modify_icons` at `weather_data.py:446-447`) is sorted lexicographically by
canonical description, and it is a permutation of the index accumulated in
first-seen order by the record loop, so the asset-fetch sequence is a
deterministic function of the index contents. -/
theorem condition_index_sorted (taxonomy : List ConditionInfo) (data : List DayItem)
    (d2 : List DayItem) (ec mc : List (String × String))
    (h : modify_condition taxonomy data = Except.ok (d2, ec, mc)) :
    List.Sorted key_le ec ∧
      ∀ d0 ec0, resolve_days taxonomy [] data = Except.ok (d0, ec0) → List.Perm ec ec0 := by
  rw [modify_condition] at h
  cases hres : resolve_days taxonomy [] data with
  | error e => rw [hres] at h; cases h
  | ok r =>
    obtain ⟨d0, ec0⟩ := r
    rw [hres] at h
    dsimp only at h
    injection h with h
    injection h with h1 h23
    injection h23 with h2 h3
    constructor
    · rw [← h2]
      exact List.sorted_insertionSort key_le ec0
    · intro d1 ec1 h4
      injection h4 with h4
      injection h4 with ha hb
      rw [← h2, ← hb]
      exact List.perm_insertionSort key_le ec0

theorem condition_index_sorted_witness :
    List.Sorted key_le [("Rain", "10d"), ("Shower Rain", "09d")] ∧
      ∀ d0 ec0,
        resolve_days [⟨"10d", "Rain"⟩, ⟨"09d", "Shower Rain"⟩] []
            [sample_day ["shower rain", "rain"]] = Except.ok (d0, ec0) →
        List.Perm [("Rain", "10d"), ("Shower Rain", "09d")] ec0 :=
  condition_index_sorted [⟨"10d", "Rain"⟩, ⟨"09d", "Shower Rain"⟩]
    [sample_day ["shower rain", "rain"]] [c7_day_resolved]
    [("Rain", "10d"), ("Shower Rain", "09d")] [] (by with_unfolding_all rfl)

theorem map_records_map (f g : HourlyEntry → HourlyEntry) (data : List DayItem) :
    map_records f (map_records g data) = map_records (fun r => f (g r)) data := by
  simp [map_records, List.map_map, Function.comp]

theorem map_records_id (data : List DayItem) : map_records (fun r => r) data = data := by
  simp [map_records]

theorem annotate_as_map (icons : String → List Nat) (ec : List (String × String)) :
    ∀ (l : List (String × String)) (data : List DayItem),
      l.foldl (fun d p => map_records (annotate_step ec p.2 (icons p.2)) d) data =
        map_records (fun r => l.foldl (fun r p => annotate_step ec p.2 (icons p.2) r) r)
          data := by
  intro l
  induction l with
  | nil => intro data; simp [map_records_id]
  | cons p l ih =>
    intro data
    simp only [List.foldl_cons]
    rw [ih, map_records_map]

theorem dlookup_mem (m : List (String × String)) (k v : String)
    (h : dlookup m k = some v) : (k, v) ∈ m := by
  rw [dlookup] at h
  cases hf : m.find? (fun p => p.1 == k) with
  | none => rw [hf] at h; cases h
  | some q =>
    rw [hf] at h
    injection h with h
    have hq1 : q.1 = k := by simpa using List.find?_some hf
    have hqm : q ∈ m := List.mem_of_find?_eq_some hf
    have : (k, v) = q := by
      rw [← hq1, ← h]
    rw [this]
    exact hqm

theorem annotate_fold_eq (icons : String → List Nat) (ec : List (String × String)) :
    ∀ (l : List (String × String)) (r : HourlyEntry),
      l.foldl (fun r p => annotate_step ec p.2 (icons p.2) r) r =
        if ∃ p ∈ l, dlookup ec r.conditions = some p.2 then annotate_net icons ec r
        else r := by
  intro l
  induction l with
  | nil => intro r; simp
  | cons p l ih =>
    intro r
    simp only [List.foldl_cons]
    by_cases hp : dlookup ec r.conditions = some p.2
    · have hstep : annotate_step ec p.2 (icons p.2) r = set_emoji p.2 (icons p.2) r := by
        rw [annotate_step, if_pos hp]
      have hnet : annotate_net icons ec r = set_emoji p.2 (icons p.2) r := by
        rw [annotate_net, hp]
      rw [hstep, ih]
      have hcond : (set_emoji p.2 (icons p.2) r).conditions = r.conditions := rfl
      have hex : (∃ q ∈ p :: l, dlookup ec r.conditions = some q.2) :=
        ⟨p, by simp, hp⟩
      rw [if_pos hex]
      by_cases hex2 : ∃ q ∈ l, dlookup ec (set_emoji p.2 (icons p.2) r).conditions = some q.2
      · rw [if_pos hex2]
        have : annotate_net icons ec (set_emoji p.2 (icons p.2) r) =
            set_emoji p.2 (icons p.2) (set_emoji p.2 (icons p.2) r) := by
          rw [annotate_net, hcond, hp]
        rw [this, hnet]
        rfl
      · rw [if_neg hex2, hnet]
    · have hstep : annotate_step ec p.2 (icons p.2) r = r := by
        rw [annotate_step, if_neg hp]
      rw [hstep, ih]
      by_cases hex : ∃ q ∈ l, dlookup ec r.conditions = some q.2
      · rw [if_pos hex, if_pos (by obtain ⟨q, hq, hq2⟩ := hex; exact ⟨q, by simp [hq], hq2⟩)]
      · rw [if_neg hex, if_neg ?_]
        intro hcontra
        obtain ⟨q, hq, hq2⟩ := hcontra
        rcases List.mem_cons.mp hq with h1 | h1
        · exact hp (h1 ▸ hq2)
        · exact hex ⟨q, h1, hq2⟩

theorem annotate_record_eq (icons : String → List Nat) (ec : List (String × String))
    (r : HourlyEntry) :
    ec.foldl (fun r p => annotate_step ec p.2 (icons p.2) r) r = annotate_net icons ec r := by
  rw [annotate_fold_eq]
  cases hl : dlookup ec r.conditions with
  | none =>
    rw [if_neg ?_, annotate_net, hl]
    intro hcontra
    obtain ⟨q, _, hq2⟩ := hcontra
    cases hq2
  | some c =>
    exact if_pos ⟨(r.conditions, c), dlookup_mem ec r.conditions c hl, rfl⟩

theorem annotate_net_idem (icons : String → List Nat) (ec : List (String × String))
    (r : HourlyEntry) :
    annotate_net icons ec (annotate_net icons ec r) = annotate_net icons ec r := by
  cases hl : dlookup ec r.conditions with
  | none =>
    have h1 : annotate_net icons ec r = r := by rw [annotate_net, hl]
    rw [h1, h1]
  | some c =>
    have h1 : annotate_net icons ec r = set_emoji c (icons c) r := by rw [annotate_net, hl]
    have h2 : dlookup ec (set_emoji c (icons c) r).conditions = some c := by
      have hcond : (set_emoji c (icons c) r).conditions = r.conditions := rfl
      rw [hcond, hl]
    rw [h1, annotate_net, h2]
    rfl

/-- C8: the annotate pass is idempotent.  With the same icon map and the same
ConditionIndex, running the annotation loop of `modify_icons` a second time
over an already-annotated dataset changes nothing: each record's condition
text is preserved by annotation, so the second pass recomputes exactly the
same emoji payload for every hourly record. -/
theorem annotate_idempotent (icons : String → List Nat) (emoji_con : List (String × String))
    (data : List DayItem) :
    annotate icons emoji_con (annotate icons emoji_con data) =
      annotate icons emoji_con data := by
  rw [annotate, annotate, annotate_as_map, annotate_as_map, map_records_map]
  simp only [annotate_record_eq]
  congr 1
  funext r
  exact annotate_net_idem icons emoji_con r

theorem mapM_mem_exists {α β : Type} (f : α → Option β) :
    ∀ (l : List α) (out : List β), l.mapM f = some out →
      ∀ b ∈ out, ∃ a ∈ l, f a = some b := by
  intro l
  induction l with
  | nil =>
    intro out h b hb
    simp only [List.mapM_nil, pure, Option.some.injEq] at h
    rw [← h] at hb
    cases hb
  | cons a l ih =>
    intro out h b hb
    rw [List.mapM_cons] at h
    cases hfa : f a with
    | none => rw [hfa] at h; simp at h
    | some x =>
      rw [hfa] at h
      cases hml : l.mapM f with
      | none => rw [hml] at h; simp at h
      | some xs =>
        rw [hml] at h
        simp at h
        rw [← h] at hb
        rcases List.mem_cons.mp hb with h1 | h1
        · exact ⟨a, by simp, h1 ▸ hfa⟩
        · obtain ⟨a2, ha2, hfa2⟩ := ih xs hml b h1
          exact ⟨a2, by simp [ha2], hfa2⟩

theorem both_degrees_snd (c : ℚ) :
    (both_degrees c).2 = py_round2 ((both_degrees c).1 * 9 / 5 + 32) := by
  rw [both_degrees_eq]

/-- C10: in every temperature pair produced by `full_weather_data` — the 24
hourly pairs of every day and the per-day min / max pairs — the Fahrenheit
component is exactly `round(C * 9 / 5 + 32, 2)`, Python's two-decimal
rounding of the Celsius-to-Fahrenheit conversion (rationals idealize the
source's floats). -/
theorem temperature_pair_relation (data : RawData) (out : List FullDay)
    (h : full_weather_data data = some out) :
    ∀ d ∈ out,
      (∀ p ∈ d.min_temp, p.2 = py_round2 (p.1 * 9 / 5 + 32)) ∧
      (∀ p ∈ d.max_temp, p.2 = py_round2 (p.1 * 9 / 5 + 32)) ∧
      (∀ x ∈ d.hourly, x.2.1.2 = py_round2 (x.2.1.1 * 9 / 5 + 32)) := by
  intro d hd
  rw [full_weather_data] at h
  obtain ⟨raw, _, hfd⟩ := mapM_mem_exists _ _ _ h d hd
  cases hpd : parse_day_date raw.datetime with
  | none => rw [hpd] at hfd; cases hfd
  | some date =>
    cases hbd : build_day_hours raw with
    | none => rw [hpd, hbd] at hfd; cases hfd
    | some hs =>
      rw [hpd, hbd] at hfd
      injection hfd with hfd
      rw [build_day_hours] at hbd
      by_cases hlen : raw.hours.length < 24
      · rw [if_pos hlen] at hbd; cases hbd
      · rw [if_neg hlen] at hbd
        injection hbd with hbd
        refine ⟨?_, ?_, ?_⟩
        · intro p hp
          rw [← hfd] at hp
          dsimp only at hp
          obtain ⟨c, _, hcp⟩ := List.mem_map.mp hp
          rw [← hcp]
          exact both_degrees_snd _
        · intro p hp
          rw [← hfd] at hp
          dsimp only at hp
          obtain ⟨c, _, hcp⟩ := List.mem_map.mp hp
          rw [← hcp]
          exact both_degrees_snd _
        · intro x hx
          rw [← hfd] at hx
          dsimp only at hx
          rw [← hbd] at hx
          obtain ⟨rh, _, hrx⟩ := List.mem_map.mp hx
          rw [← hrx]
          exact both_degrees_snd _

theorem temperature_pair_relation_witness :
    ((mkRat 25 1, mkRat 77 1) : ℚ × ℚ).2 =
      py_round2 (((mkRat 25 1, mkRat 77 1) : ℚ × ℚ).1 * 9 / 5 + 32) :=
  (temperature_pair_relation c10_raw [c10_day_out] (by with_unfolding_all rfl)
      c10_day_out (List.mem_singleton.mpr rfl)).2.1
    (mkRat 25 1, mkRat 77 1) (List.mem_singleton.mpr rfl)
